import Mathlib

/-!
Verification of the fetchSSE streaming client.

The development shallowly embeds the core of the source module (the
`fetchSSE` factory): the SSE frame parser (`parseSSEEvent`), the
per-frame connection bookkeeping and dispatch in the read loop
(`processFrame`, `processChunk`), header construction
(`buildFetchHeaders`, from `buildFetchOptions`), the retry policy
(`shouldRetry`) and reconnection scheduling (`scheduleReconnect`), and
the listener dispatch loop (`dispatchCallbacks`, from `dispatchEvent`).

JavaScript strings are modelled as `List Char` (`Str`); `null`/absent
values as `Option`; numbers relevant here (HTTP statuses, retry delays)
as `Int`; machine-level number overflow plays no role in this code.
-/

namespace FetchSSE

/-- JavaScript strings, modelled as lists of characters. -/
abbrev Str := List Char

/-- Whitespace recognized by JavaScript `String.prototype.trim` (the
characters relevant to this code: ASCII blanks plus NBSP and BOM). -/
def isJsWs (c : Char) : Bool :=
  c = ' ' || c = '\t' || c = '\n' || c = '\r' || c = '\x0b' || c = '\x0c' ||
  c = '\u00A0' || c = '\uFEFF'

/-- JavaScript `s.trim()`: remove all leading and trailing whitespace. -/
def jsTrim (cs : Str) : Str :=
  ((cs.dropWhile isJsWs).reverse.dropWhile isJsWs).reverse

/-- JavaScript `s.split('\n')` (source line 149: `eventData.split('\n')`). -/
def splitOnNl : Str → List Str
  | [] => [[]]
  | c :: rest =>
    if c = '\n' then [] :: splitOnNl rest
    else
      match splitOnNl rest with
      | [] => [[c]]
      | l :: ls => (c :: l) :: ls

/-- Split a line at its first colon (source lines 156-163:
`part.indexOf(':')` with `slice` on both sides); `none` when the line
has no colon. -/
def splitAtFirstColon : Str → Option (Str × Str)
  | [] => none
  | c :: rest =>
    if c = ':' then some ([], rest)
    else
      match splitAtFirstColon rest with
      | none => none
      | some kv => some (c :: kv.1, kv.2)

/-- Decimal digit run at the front of a string, as a number; `none`
when there is no digit. -/
def parseDigits (cs : Str) : Option Nat :=
  let ds := cs.takeWhile Char.isDigit
  if ds.isEmpty then none
  else some (ds.foldl (fun n c => n * 10 + (c.toNat - '0'.toNat)) 0)

/-- JavaScript `parseInt(value, 10)` on an already-trimmed string
(source line 176): optional sign, then leading decimal digits; `none`
models `NaN`. -/
def jsParseInt (cs : Str) : Option Int :=
  match cs with
  | [] => none
  | c :: rest =>
    if c = '-' then (parseDigits rest).map (fun n => -(n : Int))
    else if c = '+' then (parseDigits rest).map (fun n => (n : Int))
    else (parseDigits cs).map (fun n => (n : Int))

/-- The `data` accumulation of source line 170:
`eventDataString += (eventDataString ? '\n' : '') + value`. -/
def appendData (acc v : Str) : Str :=
  acc ++ (if acc = [] then [] else ['\n']) ++ v

/-- Result of parsing one SSE frame (source lines 150-153 and 184). -/
structure ParsedEvent where
  eventName : Str
  eventDataString : Str
  eventId : Option Str
  retry : Option Int
deriving DecidableEq

/-- Initial per-frame parse state (source lines 150-153). -/
def initParsed : ParsedEvent :=
  { eventName := "message".toList, eventDataString := [], eventId := none, retry := none }

/-- One iteration of the `eventParts.forEach` body (source lines 155-182):
split the line at its first colon, trim both sides, and update the
frame fields by key. -/
def processLine (st : ParsedEvent) (part : Str) : ParsedEvent :=
  match splitAtFirstColon part with
  | none => st
  | some kv =>
    let key := jsTrim kv.1
    let value := jsTrim kv.2
    if key = "event".toList then { st with eventName := value }
    else if key = "data".toList then
      { st with eventDataString := appendData st.eventDataString value }
    else if key = "id".toList then { st with eventId := some value }
    else if key = "retry".toList then
      match jsParseInt value with
      | some n => { st with retry := some n }
      | none => st
    else st

/-- `parseSSEEvent` (source lines 148-185): split the frame into lines
and fold the field updates over them. -/
def parseSSEEvent (eventData : Str) : ParsedEvent :=
  (splitOnNl eventData).foldl processLine initParsed

end FetchSSE

namespace FetchSSE

/-- The event object delivered to listeners (source lines 50-56), with
the connection-independent attributes the claims are about; `origin`
and the `target` back-reference carry no per-event information. -/
structure DispatchedEvent where
  type : Str
  data : Str
  lastEventId : Option Str
deriving DecidableEq

/-- The mutable per-connection variables of the closure (source lines
20-26 and `sse.readyState` line 33). -/
structure ConnState where
  lastEventId : Option Str
  currentRetryDelay : Int
  retryCount : Nat
  isClosed : Bool
  readyState : Nat
deriving DecidableEq

/-- Configuration options relevant to retry handling (source lines 8-9):
`retryDelay` defaults to 3000; `maxRetries` defaults to `Infinity`,
modelled as `none`. -/
structure RetryConfig where
  retryDelay : Int
  maxRetries : Option Nat
deriving DecidableEq

/-- The defaults from the option destructuring (source lines 8-10). -/
def defaultCfg : RetryConfig := { retryDelay := 3000, maxRetries := none }

/-- Initial closure state (source lines 20-26): no last event id, delay
from the configuration, zero retries, not closed, `readyState` 0. -/
def initState (cfg : RetryConfig) : ConnState :=
  { lastEventId := none, currentRetryDelay := cfg.retryDelay, retryCount := 0,
    isClosed := false, readyState := 0 }

/-- The failure context object used by the retry logic.  The object
built in `scheduleReconnect` (source line 297) is
`{ retryCount, lastError: 'Connection lost' }` and carries no `status`;
the error thrown for a non-ok response (source lines 212-214) carries
`status := some code`. -/
structure RetryErr where
  status : Option Int
  retryCount : Nat
  lastError : Str
deriving DecidableEq

/-- `retryCount >= maxRetries` (source line 193); always false for the
default `maxRetries = Infinity`. -/
def reachedMax : Option Nat → Nat → Bool
  | some m, n => m ≤ n
  | none, _ => false

/-- `error.status && [400, 401, 403, 404, 410].includes(error.status)`
(source line 196); an absent status (and status 0, which is falsy and
also not in the list) yields false. -/
def isTerminalStatus : Option Int → Bool
  | some s => s = 400 || s = 401 || s = 403 || s = 404 || s = 410
  | none => false

/-- `shouldRetry` (source lines 187-201): a supplied `customRetryLogic`
is consulted exclusively; otherwise refuse at the retry ceiling or on a
terminal HTTP status, and permit everything else. -/
def shouldRetry (cfg : RetryConfig) (custom : Option (RetryErr → Nat → Bool))
    (error : RetryErr) (retryCount : Nat) : Bool :=
  match custom with
  | some f => f error retryCount
  | none =>
    if reachedMax cfg.maxRetries retryCount then false
    else if isTerminalStatus error.status then false
    else true

/-- `sse.close()` effect on the closure state (source lines 85-92):
set `isClosed`, move `readyState` to 2; timer/abort/listener cleanup
has no footprint in `ConnState`. -/
def closeConn (st : ConnState) : ConnState :=
  { st with isClosed := true, readyState := 2 }

/-- `scheduleReconnect` (source lines 291-313): no-op when closed; build
the synthetic `{ retryCount, lastError: 'Connection lost' }` context,
consult `shouldRetry`, close on refusal, otherwise increment the retry
counter and schedule `connect` after `currentRetryDelay` (the returned
`Option Int` is the scheduled delay, `none` when nothing is scheduled). -/
def scheduleReconnect (cfg : RetryConfig) (custom : Option (RetryErr → Nat → Bool))
    (st : ConnState) : ConnState × Option Int :=
  if st.isClosed then (st, none)
  else
    let retryError : RetryErr :=
      { status := none, retryCount := st.retryCount, lastError := "Connection lost".toList }
    if shouldRetry cfg custom retryError st.retryCount then
      ({ st with retryCount := st.retryCount + 1 }, some st.currentRetryDelay)
    else
      (closeConn st, none)

/-- The `.catch` failure path of `connect` (source lines 282-288, and
identically the read-error path, lines 272-277): when not closed,
dispatch an `error` event and call `scheduleReconnect`.  The handler
receives the thrown error — whose `status` is the parameter here — but
passes none of it to `scheduleReconnect`, which rebuilds its own
context. -/
def handleFailure (cfg : RetryConfig) (custom : Option (RetryErr → Nat → Bool))
    (st : ConnState) (status : Option Int) : ConnState × Option Int :=
  if st.isClosed then (st, none)
  else scheduleReconnect cfg custom st

end FetchSSE
namespace FetchSSE

/-- The id/retry bookkeeping applied after parsing a frame (source
lines 252-260): a frame id overwrites `lastEventId`; a valid `retry`
value overwrites `currentRetryDelay`. -/
def bookkeep (st : ConnState) (p : ParsedEvent) : ConnState :=
  let st1 :=
    match p.eventId with
    | some i => { st with lastEventId := some i }
    | none => st
  match p.retry with
  | some r => { st1 with currentRetryDelay := r }
  | none => st1

/-- Processing of one complete frame inside the read loop (source lines
249-266): skip frames that trim to nothing, apply the bookkeeping, and
dispatch `(eventName, eventDataString, eventId)` only when the
accumulated payload is non-empty.  The third `dispatchEvent` argument
at source line 264 is the frame's own `eventId`. -/
def processFrame (st : ConnState) (eventData : Str) : ConnState × List DispatchedEvent :=
  if jsTrim eventData = [] then (st, [])
  else
    let p := parseSSEEvent eventData
    let st1 := bookkeep st p
    if p.eventDataString = [] then (st1, [])
    else (st1, [{ type := p.eventName, data := p.eventDataString, lastEventId := p.eventId }])

/-- The frame extraction of the read loop (source lines 244-269): cut
the buffer at each `"\n\n"`, leftmost first, keeping the text after the
last boundary as the remaining buffer. -/
def extractFrames : Str → List Str × Str
  | [] => ([], [])
  | '\n' :: '\n' :: rest =>
    let r := extractFrames rest
    ([] :: r.1, r.2)
  | c :: rest =>
    match extractFrames rest with
    | ([], rem) => ([], c :: rem)
    | (f :: fs, rem) => ((c :: f) :: fs, rem)

/-- Outcome of feeding one decoded chunk to the read loop. -/
structure ChunkResult where
  state : ConnState
  events : List DispatchedEvent
  buffer : Str
deriving DecidableEq

/-- One turn of the read loop (source lines 241-269): append the chunk
to the buffer, split off every complete frame, and run `processFrame`
over them in order, concatenating the dispatched events. -/
def processChunk (st : ConnState) (buffer chunk : Str) : ChunkResult :=
  let buf := buffer ++ chunk
  let fr := extractFrames buf
  let r := fr.1.foldl
    (fun (acc : ConnState × List DispatchedEvent) f =>
      let pr := processFrame acc.1 f
      (pr.1, acc.2 ++ pr.2))
    (st, [])
  { state := r.1, events := r.2, buffer := fr.2 }

end FetchSSE
namespace FetchSSE

/-- JavaScript object-key assignment `obj[k] = v` on an assoc-list view
of a headers object: replace in place, or append a new key. -/
def setHeader (hs : List (Str × Str)) (k v : Str) : List (Str × Str) :=
  match hs with
  | [] => [(k, v)]
  | (k1, v1) :: rest => if k1 = k then (k, v) :: rest else (k1, v1) :: setHeader rest k v

/-- JavaScript object-key read `obj[k]` on the assoc-list view. -/
def getHeader (hs : List (Str × Str)) (k : Str) : Option Str :=
  match hs with
  | [] => none
  | (k1, v1) :: rest => if k1 = k then some v1 else getHeader rest k

/-- The protocol default headers (source lines 105-106). -/
def defaultHeaders : List (Str × Str) :=
  [("Accept".toList, "text/event-stream".toList),
   ("Cache-Control".toList, "no-cache".toList)]

/-- The header-building part of `buildFetchOptions` (source lines
103-113): spread the caller headers over the defaults, then attach
`Last-Event-ID` exactly when `lastEventId` is non-null. -/
def buildFetchHeaders (custom : List (Str × Str)) (lastEventId : Option Str) :
    List (Str × Str) :=
  let base := custom.foldl (fun hs kv => setHeader hs kv.1 kv.2) defaultHeaders
  match lastEventId with
  | some i => setHeader base "Last-Event-ID".toList i
  | none => base

/-- The listener loop of `dispatchEvent` (source lines 58-59:
`for (const cb of callbacks) cb(eventObject);`).  Each callback is
abstracted by whether it throws; the result is the list of positions
that were invoked together with whether an exception escaped the loop.
There is no try/catch around the call, so a throw ends the loop. -/
def dispatchAux (i : Nat) : List Bool → List Nat × Bool
  | [] => ([], false)
  | throws :: rest =>
    if throws then ([i], true)
    else
      let r := dispatchAux (i + 1) rest
      (i :: r.1, r.2)

/-- `dispatchEvent`'s delivery to the registered listeners of one event
type, in registration order (source lines 58-59). -/
def dispatchCallbacks (callbacks : List Bool) : List Nat × Bool :=
  dispatchAux 0 callbacks

end FetchSSE
namespace FetchSSE

/-- Observable operations on a live connection, for stating the
cross-reconnect invariants: a complete frame arriving from the stream,
a caller call to `setLastEventId` (source lines 98-100), and a
reconnection (`scheduleReconnect` followed by `connect`, which rebuilds
the request via `buildFetchOptions`, source lines 203-207). -/
inductive Op where
  | frame (s : Str)
  | setId (i : Str)
  | reconnect
deriving DecidableEq

/-- What a rebuilt request looks like at a reconnection attempt: the
delay it was scheduled after (source line 312) and the headers built by
`buildFetchOptions` when the attempt fires (source line 207). -/
structure ReconRecord where
  delay : Int
  headers : List (Str × Str)
deriving DecidableEq

/-- One observable operation, against the default retry options
(`maxRetries = Infinity`, no `customRetryLogic`); a closed connection
reacts to nothing (reader cancelled, timer cleared, source lines
85-92 and 309). -/
def runStep (custom : List (Str × Str)) (st : ConnState) (op : Op) :
    ConnState × List ReconRecord :=
  if st.isClosed then (st, [])
  else
    match op with
    | Op.frame s => ((processFrame st s).1, [])
    | Op.setId i => ({ st with lastEventId := some i }, [])
    | Op.reconnect =>
      let sr := scheduleReconnect defaultCfg none st
      match sr.2 with
      | some d => ({ sr.1 with readyState := 0 },
          [{ delay := d, headers := buildFetchHeaders custom sr.1.lastEventId }])
      | none => (sr.1, [])

/-- A sequence of observable operations, collecting the rebuilt
requests of every reconnection attempt in order. -/
def runOps (custom : List (Str × Str)) (st : ConnState) : List Op → ConnState × List ReconRecord
  | [] => (st, [])
  | op :: rest =>
    let r1 := runStep custom st op
    let r2 := runOps custom r1.1 rest
    (r2.1, r1.2 ++ r2.2)

/-- The event id an operation writes, if any: a frame writes its parsed
`id` field (only non-blank frames are parsed, source line 249), and
`setLastEventId` writes its argument. -/
def writtenId : Op → Option Str
  | Op.frame s => if jsTrim s = [] then none else (parseSSEEvent s).eventId
  | Op.setId i => some i
  | Op.reconnect => none

/-- The retry delay an operation writes, if any: only a non-blank frame
with a valid numeric `retry` field writes one. -/
def writtenRetry : Op → Option Int
  | Op.frame s => if jsTrim s = [] then none else (parseSSEEvent s).retry
  | _ => none

/-- Last-write-wins resolution of the event id over a run. -/
def lastWins (a : Option Str) : List Op → Option Str
  | [] => a
  | op :: rest =>
    lastWins (match writtenId op with | some i => some i | none => a) rest

/-- Last-write-wins resolution of the active retry delay over a run. -/
def lastRetryWins (a : Int) : List Op → Int
  | [] => a
  | op :: rest =>
    lastRetryWins (match writtenRetry op with | some r => r | none => a) rest

/-- Number of reconnection operations in a run. -/
def countRecon : List Op → Nat
  | [] => 0
  | Op.reconnect :: rest => countRecon rest + 1
  | _ :: rest => countRecon rest

end FetchSSE
namespace FetchSSE

/-- Claim-side value normalization, following the spec's words for C3:
a field value is "left-trimmed of exactly one leading space if present
(any further leading whitespace and all trailing whitespace are
preserved)". -/
def specStripOneSpace : Str → Str
  | ' ' :: rest => rest
  | v => v

/-- Claim-side join "by a single line break, in order". -/
def joinNl : List Str → Str
  | [] => []
  | [v] => v
  | v :: vs => v ++ '\n' :: joinNl vs

/-- A `data` field line carrying the raw value `v`. -/
def dataLine (v : Str) : Str := "data: ".toList ++ v

/-- The (trimmed) field name of a frame line, `none` for a colon-free
line. -/
def lineKey (part : Str) : Option Str :=
  (splitAtFirstColon part).map (fun kv => jsTrim kv.1)

theorem splitAtFirstColon_append (k v : Str) (h : ':' ∉ k) :
    splitAtFirstColon (k ++ (':' :: v)) = some (k, v) := by
  induction k with
  | nil => simp [splitAtFirstColon]
  | cons c k ih =>
    have hc : ¬(c = ':') := by
      intro hc; exact h (by simp [hc])
    have hk : ':' ∉ k := fun hm => h (List.mem_cons_of_mem _ hm)
    simp [splitAtFirstColon, hc, ih hk]

theorem splitOnNl_no_nl {l : Str} (h : '\n' ∉ l) : splitOnNl l = [l] := by
  induction l with
  | nil => rfl
  | cons c l ih =>
    have hc : ¬(c = '\n') := by
      intro hc; exact h (by simp [hc])
    have hl : '\n' ∉ l := fun hm => h (List.mem_cons_of_mem _ hm)
    simp [splitOnNl, hc, ih hl]

theorem splitOnNl_append {l : Str} (r : Str) (h : '\n' ∉ l) :
    splitOnNl (l ++ ('\n' :: r)) = l :: splitOnNl r := by
  induction l with
  | nil => simp [splitOnNl]
  | cons c l ih =>
    have hc : ¬(c = '\n') := by
      intro hc; exact h (by simp [hc])
    have hl : '\n' ∉ l := fun hm => h (List.mem_cons_of_mem _ hm)
    simp [splitOnNl, hc, ih hl]

theorem splitOnNl_joinNl (vs : List Str) (h0 : vs ≠ [])
    (h : ∀ v ∈ vs, '\n' ∉ v) : splitOnNl (joinNl vs) = vs := by
  induction vs with
  | nil => exact absurd rfl h0
  | cons v vs ih =>
    cases vs with
    | nil => exact splitOnNl_no_nl (h v (by simp))
    | cons w ws =>
      have hv : '\n' ∉ v := h v (by simp)
      have hrest : ∀ u ∈ w :: ws, '\n' ∉ u := fun u hu => h u (by simp [hu])
      calc splitOnNl (joinNl (v :: w :: ws))
          = splitOnNl (v ++ ('\n' :: joinNl (w :: ws))) := by rfl
        _ = v :: splitOnNl (joinNl (w :: ws)) := splitOnNl_append _ hv
        _ = v :: w :: ws := by rw [ih (by simp) hrest]

theorem jsTrim_ws_cons {c : Char} (v : Str) (h : isJsWs c) :
    jsTrim (c :: v) = jsTrim v := by
  simp [jsTrim, List.dropWhile_cons, h]

theorem processLine_dataLine (st : ParsedEvent) (v : Str) :
    processLine st (dataLine v) =
      { st with eventDataString := appendData st.eventDataString (jsTrim v) } := by
  have h1 : splitAtFirstColon (dataLine v) = some ("data".toList, ' ' :: v) :=
    splitAtFirstColon_append "data".toList (' ' :: v) (by decide)
  have h2 : jsTrim (' ' :: v) = jsTrim v := jsTrim_ws_cons v (by decide)
  have e1 : jsTrim ['d', 'a', 't', 'a'] = ['d', 'a', 't', 'a'] := by decide
  simp [processLine, h1, h2, e1]

theorem foldl_processLine_dataLine (vs : List Str) (st : ParsedEvent) :
    (vs.map dataLine).foldl processLine st =
      { st with eventDataString := (vs.map jsTrim).foldl appendData st.eventDataString } := by
  induction vs generalizing st with
  | nil => simp
  | cons v vs ih => simp [processLine_dataLine, ih]

theorem joinNl_cons_cons (a v : Str) (vs : List Str) :
    joinNl ((a ++ ('\n' :: v)) :: vs) = a ++ ('\n' :: joinNl (v :: vs)) := by
  cases vs with
  | nil => rfl
  | cons w ws => simp [joinNl]

theorem foldl_appendData_ne_nil (vs : List Str) (a : Str) (h : a ≠ []) :
    vs.foldl appendData a = joinNl (a :: vs) := by
  induction vs generalizing a with
  | nil => simp [joinNl]
  | cons v vs ih =>
    have ha : appendData a v = a ++ ('\n' :: v) := by simp [appendData, h]
    rw [List.foldl_cons, ha, ih _ (by simp), joinNl_cons_cons]
    rfl

end FetchSSE
namespace FetchSSE

/-- C3 counterexample: the claim predicts that the value of
`"data:  x"` keeps its second leading space (payload `" x"`), but
`parseSSEEvent` trims all surrounding whitespace and yields `"x"`. -/
theorem value_not_stripped_of_one_space :
    (parseSSEEvent "data:  x".toList).eventDataString = "x".toList ∧
    specStripOneSpace "  x".toList = " x".toList ∧
    (parseSSEEvent "data:  x".toList).eventDataString ≠ specStripOneSpace "  x".toList := by
  decide

/-- C3 (amended): every frame line splits at its first colon into a
field name and a value, and the value is trimmed of all leading and
trailing whitespace (JavaScript `trim()`, not removal of exactly one
leading space); for a multi-line `data` frame whose values trim
non-empty, the payload is the trimmed values joined by a single line
break, in order. -/
theorem parse_trims_and_joins (vs : List Str)
    (hnl : ∀ v ∈ vs, '\n' ∉ v)
    (hne : ∀ v ∈ vs, jsTrim v ≠ [])
    (h0 : vs ≠ []) :
    (∀ k v : Str, ':' ∉ k → splitAtFirstColon (k ++ (':' :: v)) = some (k, v)) ∧
    (parseSSEEvent (joinNl (vs.map dataLine))).eventDataString = joinNl (vs.map jsTrim) := by
  refine ⟨fun k v h => splitAtFirstColon_append k v h, ?_⟩
  have hmapnl : ∀ l ∈ vs.map dataLine, '\n' ∉ l := by
    intro l hl
    obtain ⟨v, hv, rfl⟩ := List.mem_map.mp hl
    intro hmem
    rcases List.mem_append.mp hmem with h1 | h2
    · exact absurd h1 (by decide)
    · exact hnl v hv h2
  have hmap0 : vs.map dataLine ≠ [] := by
    cases vs with
    | nil => exact absurd rfl h0
    | cons v vs => simp
  unfold parseSSEEvent
  rw [splitOnNl_joinNl _ hmap0 hmapnl, foldl_processLine_dataLine]
  cases vs with
  | nil => exact absurd rfl h0
  | cons v vs =>
    have hv : jsTrim v ≠ [] := hne v (by simp)
    simp only [List.map_cons, List.foldl_cons]
    rw [show appendData initParsed.eventDataString (jsTrim v) = jsTrim v by
          simp [appendData, initParsed],
        foldl_appendData_ne_nil _ _ hv]

/-- C3 witness. -/
theorem parse_trims_and_joins_witness :
    ((∀ v ∈ [" a ".toList, "b".toList], '\n' ∉ v) ∧
     (∀ v ∈ [" a ".toList, "b".toList], jsTrim v ≠ []) ∧
     ([" a ".toList, "b".toList] : List Str) ≠ []) ∧
    ((∀ k v : Str, ':' ∉ k → splitAtFirstColon (k ++ (':' :: v)) = some (k, v)) ∧
     (parseSSEEvent (joinNl ([" a ".toList, "b".toList].map dataLine))).eventDataString =
       joinNl ([" a ".toList, "b".toList].map jsTrim)) :=
  ⟨⟨by decide, by decide, by decide⟩,
   parse_trims_and_joins [" a ".toList, "b".toList] (by decide) (by decide) (by decide)⟩

end FetchSSE
namespace FetchSSE

/-- C10: a `data` line whose value trims to the empty string leaves an
empty accumulated payload unchanged, but appends a bare line break to a
non-empty one; concretely, `"data:\ndata: a\n\n"` dispatches payload
`"a"` while `"data: a\ndata:\n\n"` dispatches payload `"a\n"`. -/
theorem empty_data_line_handling :
    (∀ (st : ParsedEvent) (v : Str), jsTrim v = [] →
      (processLine st ("data:".toList ++ v)).eventDataString =
        (if st.eventDataString = [] then [] else st.eventDataString ++ ['\n'])) ∧
    (processChunk (initState defaultCfg) [] "data:\ndata: a\n\n".toList).events =
      [{ type := "message".toList, data := "a".toList, lastEventId := none }] ∧
    (processChunk (initState defaultCfg) [] "data: a\ndata:\n\n".toList).events =
      [{ type := "message".toList, data := "a\n".toList, lastEventId := none }] := by
  refine ⟨?_, by decide, by decide⟩
  intro st v hv
  have h1 : splitAtFirstColon ('d' :: 'a' :: 't' :: 'a' :: ':' :: v) =
      some (['d', 'a', 't', 'a'], v) :=
    splitAtFirstColon_append ['d', 'a', 't', 'a'] v (by decide)
  have e1 : jsTrim ['d', 'a', 't', 'a'] = ['d', 'a', 't', 'a'] := by decide
  by_cases hd : st.eventDataString = [] <;>
    simp [processLine, h1, e1, hv, appendData, hd]

/-- C10 witness. -/
theorem empty_data_line_handling_witness :
    jsTrim " ".toList = [] ∧
    (processLine initParsed ("data:".toList ++ " ".toList)).eventDataString =
      (if initParsed.eventDataString = [] then [] else initParsed.eventDataString ++ ['\n']) :=
  ⟨by decide, empty_data_line_handling.1 initParsed " ".toList (by decide)⟩

end FetchSSE
namespace FetchSSE

theorem jsTrim_eq_nil {cs : Str} (h : jsTrim cs = []) : ∀ c ∈ cs, isJsWs c := by
  unfold jsTrim at h
  rw [List.reverse_eq_nil_iff, List.dropWhile_eq_nil_iff] at h
  intro c hc
  have hsplit : c ∈ cs.takeWhile isJsWs ++ cs.dropWhile isJsWs := by
    rw [List.takeWhile_append_dropWhile]; exact hc
  rcases List.mem_append.mp hsplit with h1 | h2
  · exact List.mem_takeWhile_imp h1
  · exact h _ (List.mem_reverse.mpr h2)

theorem splitOnNl_ne_nil (cs : Str) : splitOnNl cs ≠ [] := by
  cases cs with
  | nil => simp [splitOnNl]
  | cons c rest =>
    simp only [splitOnNl]
    split
    · simp
    · split <;> simp

theorem mem_of_mem_splitOnNl {c : Char} {part cs : Str}
    (hp : part ∈ splitOnNl cs) (hc : c ∈ part) : c ∈ cs := by
  induction cs generalizing part with
  | nil =>
    simp [splitOnNl] at hp
    subst hp
    exact absurd hc (List.not_mem_nil c)
  | cons a rest ih =>
    by_cases ha : a = '\n'
    · simp [splitOnNl, ha] at hp
      rcases hp with hp | hp
      · subst hp; exact absurd hc (List.not_mem_nil c)
      · exact List.mem_cons_of_mem _ (ih hp hc)
    · cases hsr : splitOnNl rest with
      | nil => exact absurd hsr (splitOnNl_ne_nil rest)
      | cons l ls =>
        simp [splitOnNl, ha, hsr] at hp
        rcases hp with hp | hp
        · subst hp
          rcases List.mem_cons.mp hc with h1 | h1
          · exact h1 ▸ List.mem_cons_self a rest
          · exact List.mem_cons_of_mem _ (ih (hsr ▸ List.mem_cons_self l ls) h1)
        · exact List.mem_cons_of_mem _ (ih (hsr ▸ List.mem_cons_of_mem l hp) hc)

theorem splitAtFirstColon_eq_none {part : Str} (h : ':' ∉ part) :
    splitAtFirstColon part = none := by
  induction part with
  | nil => rfl
  | cons c rest ih =>
    have hc : ¬(c = ':') := by
      intro hc; exact h (by simp [hc])
    have hr := ih (fun m => h (List.mem_cons_of_mem _ m))
    simp [splitAtFirstColon, hc, hr]

theorem processLine_no_colon (st : ParsedEvent) {part : Str}
    (h : splitAtFirstColon part = none) : processLine st part = st := by
  simp [processLine, h]

theorem foldl_processLine_no_colon (parts : List Str) (st : ParsedEvent)
    (h : ∀ part ∈ parts, splitAtFirstColon part = none) :
    parts.foldl processLine st = st := by
  induction parts with
  | nil => rfl
  | cons p parts ih =>
    rw [List.foldl_cons, processLine_no_colon st (h p (by simp))]
    exact ih (fun q hq => h q (by simp [hq]))

theorem processLine_eventDataString (st : ParsedEvent) (part : Str)
    (h : lineKey part ≠ some "data".toList) :
    (processLine st part).eventDataString = st.eventDataString := by
  cases hs : splitAtFirstColon part with
  | none => rw [processLine_no_colon st hs]
  | some kv =>
    have hk : ¬(jsTrim kv.1 = "data".toList) := by
      intro e; exact h (by simp [lineKey, hs, e])
    simp only [processLine, hs]
    split_ifs <;> first
      | rfl
      | exact absurd (by assumption) hk
      | (cases jsParseInt (jsTrim kv.2) <;> rfl)

theorem foldl_processLine_no_data (parts : List Str) (st : ParsedEvent)
    (h : ∀ part ∈ parts, lineKey part ≠ some "data".toList) :
    (parts.foldl processLine st).eventDataString = st.eventDataString := by
  induction parts generalizing st with
  | nil => rfl
  | cons p parts ih =>
    rw [List.foldl_cons]
    rw [ih _ (fun q hq => h q (by simp [hq]))]
    exact processLine_eventDataString st p (h p (by simp))

theorem bookkeep_lastEventId (st : ConnState) (p : ParsedEvent) :
    (bookkeep st p).lastEventId =
      (match p.eventId with | some i => some i | none => st.lastEventId) := by
  cases hi : p.eventId <;> cases hr : p.retry <;> simp [bookkeep, hi, hr]

theorem bookkeep_currentRetryDelay (st : ConnState) (p : ParsedEvent) :
    (bookkeep st p).currentRetryDelay =
      (match p.retry with | some r => r | none => st.currentRetryDelay) := by
  cases hi : p.eventId <;> cases hr : p.retry <;> simp [bookkeep, hi, hr]

theorem bookkeep_isClosed (st : ConnState) (p : ParsedEvent) :
    (bookkeep st p).isClosed = st.isClosed := by
  cases hi : p.eventId <;> cases hr : p.retry <;> simp [bookkeep, hi, hr]

end FetchSSE
namespace FetchSSE

/-- C7: a complete frame whose lines carry no `data` field (only `id`,
`retry` and/or comment lines) dispatches no event, while still
recording the frame's `id` into `lastEventId` and a valid numeric
`retry` value into the active delay. -/
theorem bookkeeping_only_frames (st : ConnState) (f : Str)
    (h : ∀ part ∈ splitOnNl f, lineKey part ≠ some "data".toList) :
    (processFrame st f).2 = [] ∧
    (processFrame st f).1.lastEventId =
      (match (parseSSEEvent f).eventId with | some i => some i | none => st.lastEventId) ∧
    (processFrame st f).1.currentRetryDelay =
      (match (parseSSEEvent f).retry with | some r => r | none => st.currentRetryDelay) := by
  by_cases ht : jsTrim f = []
  · have hall := jsTrim_eq_nil ht
    have hparse : parseSSEEvent f = initParsed := by
      unfold parseSSEEvent
      apply foldl_processLine_no_colon
      intro part hp
      apply splitAtFirstColon_eq_none
      intro hcolon
      exact absurd (hall ':' (mem_of_mem_splitOnNl hp hcolon)) (by decide)
    refine ⟨?_, ?_, ?_⟩ <;> simp [processFrame, ht, hparse, initParsed]
  · have hds : (parseSSEEvent f).eventDataString = [] := by
      have := foldl_processLine_no_data (splitOnNl f) initParsed h
      simpa [parseSSEEvent, initParsed] using this
    refine ⟨?_, ?_, ?_⟩ <;>
      simp [processFrame, ht, hds, bookkeep_lastEventId, bookkeep_currentRetryDelay]

/-- C7 witness. -/
theorem bookkeeping_only_frames_witness :
    (∀ part ∈ splitOnNl "id: 7\nretry: 250".toList, lineKey part ≠ some "data".toList) ∧
    ((processFrame (initState defaultCfg) "id: 7\nretry: 250".toList).2 = [] ∧
     (processFrame (initState defaultCfg) "id: 7\nretry: 250".toList).1.lastEventId =
       (match (parseSSEEvent "id: 7\nretry: 250".toList).eventId with
        | some i => some i | none => (initState defaultCfg).lastEventId) ∧
     (processFrame (initState defaultCfg) "id: 7\nretry: 250".toList).1.currentRetryDelay =
       (match (parseSSEEvent "id: 7\nretry: 250".toList).retry with
        | some r => r | none => (initState defaultCfg).currentRetryDelay)) :=
  ⟨by decide, bookkeeping_only_frames (initState defaultCfg) "id: 7\nretry: 250".toList (by decide)⟩

end FetchSSE
namespace FetchSSE

/-- C2 counterexample: with two listeners of which the first throws,
only position 0 is invoked — the listener registered after the raising
one is never called, because the `for`-loop of `dispatchEvent` has no
per-listener exception isolation. -/
theorem listener_after_throw_not_invoked :
    dispatchCallbacks [true, false] = ([0], true) ∧
    1 ∉ (dispatchCallbacks [true, false]).1 := by decide

theorem dispatchAux_throw (pre post : List Bool) (i : Nat)
    (h : ∀ b ∈ pre, b = false) :
    dispatchAux i (pre ++ true :: post) = (List.range' i (pre.length + 1), true) := by
  induction pre generalizing i with
  | nil => simp [dispatchAux, List.range']
  | cons b pre ih =>
    have hb : b = false := h b (by simp)
    subst hb
    have hrest : ∀ x ∈ pre, x = false := fun x hx => h x (by simp [hx])
    simp [dispatchAux, ih (i + 1) hrest, List.range'_succ]

/-- C2 (amended): a listener that raises stops the dispatch loop —
exactly the listeners up to and including the first raising one are
invoked, in registration order, and the exception escapes
`dispatchEvent` instead of being isolated. -/
theorem listener_exception_stops_dispatch (pre post : List Bool)
    (h : ∀ b ∈ pre, b = false) :
    dispatchCallbacks (pre ++ true :: post) = (List.range (pre.length + 1), true) := by
  unfold dispatchCallbacks
  rw [dispatchAux_throw pre post 0 h, List.range_eq_range']

/-- C2 witness. -/
theorem listener_exception_stops_dispatch_witness :
    (∀ b ∈ [false], b = false) ∧
    dispatchCallbacks ([false] ++ true :: [false, false]) = (List.range 2, true) :=
  ⟨by decide, listener_exception_stops_dispatch [false] [false, false] (by decide)⟩

/-- C6: feeding the frame `"event: notice\ndata: hello\nid: 1\n\n"` to an
open connection dispatches exactly one event of type `notice` with
payload `"hello"` and id `"1"`; feeding `"data: a\ndata: b\n\n"` next
dispatches exactly one event of type `message` with payload `"a\nb"`. -/
theorem end_to_end_scenario :
    (processChunk (initState defaultCfg) [] "event: notice\ndata: hello\nid: 1\n\n".toList).events =
      [{ type := "notice".toList, data := "hello".toList, lastEventId := some "1".toList }] ∧
    (processChunk (initState defaultCfg) [] "event: notice\ndata: hello\nid: 1\n\n".toList).buffer = [] ∧
    (processChunk
        (processChunk (initState defaultCfg) [] "event: notice\ndata: hello\nid: 1\n\n".toList).state
        (processChunk (initState defaultCfg) [] "event: notice\ndata: hello\nid: 1\n\n".toList).buffer
        "data: a\ndata: b\n\n".toList).events =
      [{ type := "message".toList, data := "a\nb".toList, lastEventId := none }] := by
  decide

/-- C9 counterexample: after a frame sets id `"5"`, a following frame
with a `data` field but no `id` field is delivered with
`lastEventId = none`, although the connection's last received event id
at that moment is `"5"` — `dispatchEvent` is passed the frame's own id
(source line 264), not the stored `lastEventId`. -/
theorem delivered_id_not_connection_id :
    (processChunk (initState defaultCfg) [] "id: 5\ndata: x\n\ndata: y\n\n".toList).state.lastEventId =
      some "5".toList ∧
    (processChunk (initState defaultCfg) [] "id: 5\ndata: x\n\ndata: y\n\n".toList).events =
      [{ type := "message".toList, data := "x".toList, lastEventId := some "5".toList },
       { type := "message".toList, data := "y".toList, lastEventId := none }] ∧
    (some "5".toList : Option Str) ≠ none := by decide

/-- C9 (amended): every delivered event carries in `lastEventId` the
frame's own `id` field — `none` when the frame carries no `id` — rather
than the connection's stored last received event id. -/
theorem delivered_id_is_frame_id (st : ConnState) (f : Str) :
    ∀ e ∈ (processFrame st f).2, e.lastEventId = (parseSSEEvent f).eventId := by
  intro e he
  unfold processFrame at he
  split at he
  · exact absurd he (List.not_mem_nil e)
  · dsimp only at he
    split at he
    · exact absurd he (List.not_mem_nil e)
    · rw [List.mem_singleton.mp he]

/-- C9 witness. -/
theorem delivered_id_is_frame_id_witness :
    ({ type := "message".toList, data := "y".toList, lastEventId := none } : DispatchedEvent) ∈
      (processFrame (initState defaultCfg) "data: y".toList).2 ∧
    ({ type := "message".toList, data := "y".toList, lastEventId := none } :
        DispatchedEvent).lastEventId = (parseSSEEvent "data: y".toList).eventId :=
  ⟨by decide,
   delivered_id_is_frame_id (initState defaultCfg) "data: y".toList
     { type := "message".toList, data := "y".toList, lastEventId := none } (by decide)⟩

end FetchSSE
namespace FetchSSE

/-- C1: `shouldRetry`'s own terminal-status check refuses a failure
carrying status 404, but the connection never closes on an HTTP 404:
the failure handler calls `scheduleReconnect`, which rebuilds the retry
context as `{ retryCount, lastError: 'Connection lost' }` without the
status, so under the default policy a reconnection is scheduled (after
the default 3000 ms) instead of transitioning to CLOSED. -/
theorem http404_retried_because_status_dropped :
    shouldRetry defaultCfg none
      { status := some 404, retryCount := 0, lastError := [] } 0 = false ∧
    handleFailure defaultCfg none (initState defaultCfg) (some 404) =
      ({ initState defaultCfg with retryCount := 1 }, some 3000) ∧
    (handleFailure defaultCfg none (initState defaultCfg) (some 404)).1.isClosed = false := by
  decide

/-- C8: a supplied `customRetryLogic` is consulted exclusively — the
maximum-retries and terminal-status checks of the default policy are
never applied — and when it always returns true, a failure on a
non-closed connection always schedules a reconnection (after the
active delay) and never closes the connection. -/
theorem customRetryLogic_sole_authority (cfg : RetryConfig)
    (f : RetryErr → Nat → Bool) (error : RetryErr) (n : Nat) (st : ConnState)
    (hf : ∀ e k, f e k = true) (hcl : st.isClosed = false) :
    shouldRetry cfg (some f) error n = f error n ∧
    (scheduleReconnect cfg (some f) st).1.isClosed = false ∧
    (scheduleReconnect cfg (some f) st).1.retryCount = st.retryCount + 1 ∧
    (scheduleReconnect cfg (some f) st).2 = some st.currentRetryDelay := by
  refine ⟨rfl, ?_, ?_, ?_⟩ <;> simp [scheduleReconnect, shouldRetry, hf, hcl]

/-- C8 witness: the custom logic permits a retry even at a terminal
status (404) and an exhausted budget (`maxRetries = 0`), which the
default policy would both refuse. -/
theorem customRetryLogic_sole_authority_witness :
    ((∀ e k, (fun (_ : RetryErr) (_ : Nat) => true) e k = true) ∧
     (initState defaultCfg).isClosed = false) ∧
    (shouldRetry { retryDelay := 3000, maxRetries := some 0 }
        (some (fun _ _ => true)) { status := some 404, retryCount := 5, lastError := [] } 5 =
      (fun (_ : RetryErr) (_ : Nat) => true)
        { status := some 404, retryCount := 5, lastError := [] } 5 ∧
     (scheduleReconnect { retryDelay := 3000, maxRetries := some 0 }
        (some (fun _ _ => true)) (initState defaultCfg)).1.isClosed = false ∧
     (scheduleReconnect { retryDelay := 3000, maxRetries := some 0 }
        (some (fun _ _ => true)) (initState defaultCfg)).1.retryCount =
       (initState defaultCfg).retryCount + 1 ∧
     (scheduleReconnect { retryDelay := 3000, maxRetries := some 0 }
        (some (fun _ _ => true)) (initState defaultCfg)).2 =
       some (initState defaultCfg).currentRetryDelay) :=
  ⟨⟨fun _ _ => rfl, rfl⟩,
   customRetryLogic_sole_authority { retryDelay := 3000, maxRetries := some 0 }
     (fun _ _ => true) { status := some 404, retryCount := 5, lastError := [] } 5
     (initState defaultCfg) (fun _ _ => rfl) rfl⟩

end FetchSSE
namespace FetchSSE

theorem getHeader_setHeader_self (hs : List (Str × Str)) (k v : Str) :
    getHeader (setHeader hs k v) k = some v := by
  induction hs with
  | nil => simp [setHeader, getHeader]
  | cons p rest ih =>
    by_cases hp : p.1 = k
    · simp [setHeader, getHeader, hp]
    · simp [setHeader, getHeader, hp, ih]

theorem getHeader_setHeader_ne (hs : List (Str × Str)) {k1 k : Str} (v : Str)
    (h : k1 ≠ k) : getHeader (setHeader hs k1 v) k = getHeader hs k := by
  induction hs with
  | nil => simp [setHeader, getHeader, h]
  | cons p rest ih =>
    by_cases hp : p.1 = k1
    · simp [setHeader, getHeader, hp, h]
    · simp [setHeader, getHeader, hp, ih]

theorem getHeader_foldl_setHeader (l : List (Str × Str)) (hs : List (Str × Str)) (k : Str)
    (h : ∀ p ∈ l, p.1 ≠ k) :
    getHeader (l.foldl (fun a p => setHeader a p.1 p.2) hs) k = getHeader hs k := by
  induction l generalizing hs with
  | nil => rfl
  | cons p rest ih =>
    rw [List.foldl_cons, ih _ (fun q hq => h q (by simp [hq])),
      getHeader_setHeader_ne _ _ (h p (by simp))]

theorem getHeader_buildFetchHeaders (custom : List (Str × Str)) (lid : Option Str)
    (h : ∀ p ∈ custom, p.1 ≠ "Last-Event-ID".toList) :
    getHeader (buildFetchHeaders custom lid) "Last-Event-ID".toList = lid := by
  cases lid with
  | some i => simp [buildFetchHeaders, getHeader_setHeader_self]
  | none =>
    have hd : getHeader defaultHeaders "Last-Event-ID".toList = none := by decide
    simpa [buildFetchHeaders] using getHeader_foldl_setHeader custom defaultHeaders _ h

theorem processFrame_fst (st : ConnState) (s : Str) :
    (processFrame st s).1 =
      if jsTrim s = [] then st else bookkeep st (parseSSEEvent s) := by
  unfold processFrame
  split
  · rfl
  · dsimp only
    split <;> rfl

theorem scheduleReconnect_default (st : ConnState) (h : st.isClosed = false) :
    scheduleReconnect defaultCfg none st =
      ({ st with retryCount := st.retryCount + 1 }, some st.currentRetryDelay) := by
  simp [scheduleReconnect, shouldRetry, reachedMax, isTerminalStatus, defaultCfg, h]

theorem runStep_spec (custom : List (Str × Str)) (st : ConnState) (op : Op)
    (h : st.isClosed = false) :
    runStep custom st op =
      ({ lastEventId := match writtenId op with | some i => some i | none => st.lastEventId,
         currentRetryDelay :=
           match writtenRetry op with | some r => r | none => st.currentRetryDelay,
         retryCount := match op with | Op.reconnect => st.retryCount + 1 | _ => st.retryCount,
         isClosed := false,
         readyState := match op with | Op.reconnect => 0 | _ => st.readyState },
       match op with
       | Op.reconnect =>
         [{ delay := st.currentRetryDelay, headers := buildFetchHeaders custom st.lastEventId }]
       | _ => []) := by
  cases op with
  | frame s =>
    by_cases hb : jsTrim s = []
    · simp [runStep, h, processFrame_fst, hb, writtenId, writtenRetry]
      rw [← h]
    · simp only [runStep, h, Bool.false_eq_true, if_false, processFrame_fst, hb, if_neg,
        writtenId, writtenRetry]
      rw [← h]
      refine congrArg (fun x => (x, [])) ?_
      cases hi : (parseSSEEvent s).eventId <;> cases hr : (parseSSEEvent s).retry <;>
        simp [bookkeep, hi, hr]
  | setId i => simp [runStep, h, writtenId, writtenRetry]
  | reconnect =>
    simp [runStep, h, scheduleReconnect_default st h, writtenId, writtenRetry]

end FetchSSE
namespace FetchSSE

theorem runOps_spec (custom : List (Str × Str)) (ops : List Op) (st : ConnState)
    (h : st.isClosed = false) :
    (runOps custom st ops).1.isClosed = false ∧
    (runOps custom st ops).1.lastEventId = lastWins st.lastEventId ops ∧
    (runOps custom st ops).1.currentRetryDelay = lastRetryWins st.currentRetryDelay ops ∧
    (runOps custom st ops).2.length = countRecon ops := by
  induction ops generalizing st with
  | nil => exact ⟨h, rfl, rfl, rfl⟩
  | cons op rest ih =>
    have hstep := runStep_spec custom st op h
    have hcl1 : (runStep custom st op).1.isClosed = false := by rw [hstep]
    obtain ⟨h1, h2, h3, h4⟩ := ih (runStep custom st op).1 hcl1
    rw [runOps]
    refine ⟨h1, ?_, ?_, ?_⟩
    · rw [h2]; simp only [hstep]; rfl
    · rw [h3]; simp only [hstep]; rfl
    · dsimp only
      simp only [hstep] at h4
      simp only [List.length_append, h4, hstep]
      cases op <;> simp [countRecon] <;> omega

theorem runOps_append (custom : List (Str × Str)) (st : ConnState) (l1 l2 : List Op) :
    runOps custom st (l1 ++ l2) =
      ((runOps custom (runOps custom st l1).1 l2).1,
       (runOps custom st l1).2 ++ (runOps custom (runOps custom st l1).1 l2).2) := by
  induction l1 generalizing st with
  | nil => simp [runOps]
  | cons op rest ih => simp [runOps, ih, List.append_assoc]

theorem runOps_record_at (custom : List (Str × Str)) (st : ConnState) (ops1 ops2 : List Op)
    (h : st.isClosed = false) :
    (runOps custom st (ops1 ++ Op.reconnect :: ops2)).2[countRecon ops1]? =
      some { delay := lastRetryWins st.currentRetryDelay ops1,
             headers := buildFetchHeaders custom (lastWins st.lastEventId ops1) } := by
  obtain ⟨h1, h2, h3, h4⟩ := runOps_spec custom ops1 st h
  rw [runOps_append]
  dsimp only
  rw [runOps, runStep_spec custom _ _ h1, h2, h3]
  dsimp only
  rw [List.getElem?_append_right (by rw [h4])]
  simp [h4]

end FetchSSE
namespace FetchSSE

theorem lastRetryWins_append (a : Int) (l1 l2 : List Op) :
    lastRetryWins a (l1 ++ l2) = lastRetryWins (lastRetryWins a l1) l2 := by
  induction l1 generalizing a with
  | nil => rfl
  | cons op rest ih => rw [List.cons_append, lastRetryWins, lastRetryWins, ih]

theorem lastRetryWins_no_writes (a : Int) (l : List Op)
    (h : ∀ op ∈ l, writtenRetry op = none) : lastRetryWins a l = a := by
  induction l with
  | nil => rfl
  | cons op rest ih =>
    rw [lastRetryWins, h op (by simp)]
    exact ih (fun q hq => h q (by simp [hq]))

/-- C4: on every reconnection attempt the rebuilt request's headers
carry `Last-Event-ID` equal to the most recently written event id —
last write wins, whether written by a frame's `id` field or by
`setLastEventId` — with no header at all when no id was ever written;
the final state also resolves by last-write-wins, so a reconnect never
clears the id. -/
theorem resumption_header_tracks_lastEventId (custom : List (Str × Str)) (st : ConnState)
    (ops1 ops2 : List Op) (hcl : st.isClosed = false)
    (hcust : ∀ p ∈ custom, p.1 ≠ "Last-Event-ID".toList) :
    (runOps custom st (ops1 ++ Op.reconnect :: ops2)).1.lastEventId =
      lastWins st.lastEventId (ops1 ++ Op.reconnect :: ops2) ∧
    ∃ rec : ReconRecord,
      (runOps custom st (ops1 ++ Op.reconnect :: ops2)).2[countRecon ops1]? = some rec ∧
      getHeader rec.headers "Last-Event-ID".toList = lastWins st.lastEventId ops1 := by
  exact ⟨(runOps_spec custom _ st hcl).2.1,
    ⟨_, runOps_record_at custom st ops1 ops2 hcl,
      getHeader_buildFetchHeaders custom _ hcust⟩⟩

/-- C4 witness: a frame writes id 9, `setLastEventId` overwrites it
with `"z"`, and the reconnect's rebuilt headers carry `"z"`. -/
theorem resumption_header_witness :
    ((initState defaultCfg).isClosed = false ∧
     (∀ p ∈ ([] : List (Str × Str)), p.1 ≠ "Last-Event-ID".toList)) ∧
    ((runOps [] (initState defaultCfg)
        ([Op.frame "id: 9\ndata: x".toList, Op.setId "z".toList] ++ Op.reconnect :: [])).1.lastEventId =
      lastWins (initState defaultCfg).lastEventId
        ([Op.frame "id: 9\ndata: x".toList, Op.setId "z".toList] ++ Op.reconnect :: []) ∧
     ∃ rec : ReconRecord,
       (runOps [] (initState defaultCfg)
          ([Op.frame "id: 9\ndata: x".toList, Op.setId "z".toList] ++
            Op.reconnect :: [])).2[countRecon [Op.frame "id: 9\ndata: x".toList, Op.setId "z".toList]]? =
         some rec ∧
       getHeader rec.headers "Last-Event-ID".toList =
         lastWins (initState defaultCfg).lastEventId
           [Op.frame "id: 9\ndata: x".toList, Op.setId "z".toList]) :=
  ⟨⟨rfl, by simp⟩,
   resumption_header_tracks_lastEventId [] (initState defaultCfg)
     [Op.frame "id: 9\ndata: x".toList, Op.setId "z".toList] [] rfl (by simp)⟩

/-- C5: after a frame carrying a valid numeric `retry` value `d`, a
reconnection attempt following any operations that carry no `retry`
directive — frames without a `retry` field, `setLastEventId` calls,
further reconnects — is scheduled after `d` milliseconds, not after the
configured `retryDelay`: the override persists until superseded. -/
theorem retry_directive_overrides_delay (custom : List (Str × Str)) (st : ConnState)
    (pre mid ops2 : List Op) (f : Str) (d : Int)
    (hcl : st.isClosed = false)
    (hf : writtenRetry (Op.frame f) = some d)
    (hmid : ∀ op ∈ mid, writtenRetry op = none) :
    ∃ rec : ReconRecord,
      (runOps custom st
          ((pre ++ Op.frame f :: mid) ++ Op.reconnect :: ops2)).2[countRecon
            (pre ++ Op.frame f :: mid)]? = some rec ∧
      rec.delay = d := by
  refine ⟨_, runOps_record_at custom st _ ops2 hcl, ?_⟩
  show lastRetryWins st.currentRetryDelay (pre ++ Op.frame f :: mid) = d
  rw [lastRetryWins_append, lastRetryWins, hf, lastRetryWins_no_writes d mid hmid]

/-- C5 witness: the server directive `retry: 1000` overrides the
default 3000 ms for the reconnect that follows a retry-free frame and
an intervening reconnect. -/
theorem retry_directive_witness :
    ((initState defaultCfg).isClosed = false ∧
     writtenRetry (Op.frame "retry: 1000\ndata: x".toList) = some 1000 ∧
     (∀ op ∈ [Op.frame "data: y".toList, Op.reconnect], writtenRetry op = none)) ∧
    (∃ rec : ReconRecord,
      (runOps [] (initState defaultCfg)
          (([] ++ Op.frame "retry: 1000\ndata: x".toList ::
              [Op.frame "data: y".toList, Op.reconnect]) ++
            Op.reconnect :: [])).2[countRecon
            ([] ++ Op.frame "retry: 1000\ndata: x".toList ::
              [Op.frame "data: y".toList, Op.reconnect])]? = some rec ∧
      rec.delay = 1000) :=
  ⟨⟨rfl, by decide, by decide⟩,
   retry_directive_overrides_delay [] (initState defaultCfg) []
     [Op.frame "data: y".toList, Op.reconnect] [] "retry: 1000\ndata: x".toList 1000
     rfl (by decide) (by decide)⟩

end FetchSSE
